import Mathlib

/-
Verification of the neurospark-core agent runtime against its specification.

The definitions below are shallow embeddings of the Python source:
- src/message_bus/redis_streams.py : wire serialization of envelopes
  (publish_message / read_messages)
- src/agents/base.py, src/agents/enhanced_agent.py : agent message loop,
  dispatch table, pending-request tracking
- src/agents/needs/protocol.py : needs protocol timeout task
- src/agents/service_discovery.py : capability registry
- src/agents/feedback/manager.py : feedback summarization

Python dicts are modelled as association lists (insertion order preserved,
keys unique where the code guarantees it); feedback scores are modelled
exactly over the rationals; a JSON float literal is carried as its exact
decimal value (IEEE-754 rounding is not modelled); datetimes are modelled
as integer second counts.
-/

set_option maxHeartbeats 1000000

/-- Association-list lookup, modelling Python dict membership and indexing. -/
def alookup {α : Type} : List (String × α) → String → Option α
  | [], _ => none
  | (k, v) :: rest, key => if k = key then some v else alookup rest key

/-- Association-list update, modelling Python dict item assignment:
replaces the value in place when the key is present, appends otherwise. -/
def aupdate {α : Type} : List (String × α) → String → α → List (String × α)
  | [], key, v => [(key, v)]
  | (k, w) :: rest, key, v =>
    if k = key then (k, v) :: rest else (k, w) :: aupdate rest key v

/-- Python values as they appear in an envelope dict handed to the bus:
None, bool, int, float, str, list, dict.  A float is carried as the
exact decimal value of its literal, mantissa × 10^exponent (the IEEE-754
rounding Python applies on top is not modelled); vnan and vinf stand for
the float constants NaN, Infinity and -Infinity that json.loads and
json.dumps accept by default. -/
inductive PyVal where
  | vnone : PyVal
  | vbool : Bool → PyVal
  | vint : Int → PyVal
  | vfloat : Int → Int → PyVal
  | vnan : PyVal
  | vinf : Bool → PyVal
  | vstr : String → PyVal
  | vlist : List PyVal → PyVal
  | vdict : List (String × PyVal) → PyVal

/-- Python str() on scalar values, as applied by publish_message
(src/message_bus/redis_streams.py lines 274-280).  str(None) = "None",
str(True) = "True", str(False) = "False", ints print in decimal.
The vlist/vdict branches are never reached by the serializer (those go
through json.dumps); they are given placeholder values.  Python's
shortest-repr float printing is not modelled: a float is rendered in
exact mantissa/exponent form (no envelope field of the claims is a raw
float, so this branch is unreachable from envelopeWireMap). -/
def pyStr : PyVal → String
  | PyVal.vnone => "None"
  | PyVal.vbool true => "True"
  | PyVal.vbool false => "False"
  | PyVal.vint n => toString n
  | PyVal.vfloat m e => toString m ++ "e" ++ toString e
  | PyVal.vnan => "nan"
  | PyVal.vinf false => "inf"
  | PyVal.vinf true => "-inf"
  | PyVal.vstr s => s
  | PyVal.vlist _ => "<list>"
  | PyVal.vdict _ => "<dict>"

/-- JSON string escaping for the characters json.dumps escapes that can
appear in our modelled values (quote, backslash, common controls). -/
def escapeChar (c : Char) : List Char :=
  if c = '"' ∨ c = '\\' then ['\\', c]
  else if c = '\n' then ['\\', 'n']
  else if c = '\t' then ['\\', 't']
  else if c = '\r' then ['\\', 'r']
  else if c = '\x08' then ['\\', 'b']
  else if c = '\x0c' then ['\\', 'f']
  else [c]

def escapeString (s : String) : String :=
  String.mk (s.data.map escapeChar).flatten

mutual

/-- json.dumps with Python default separators (", " between items,
": " after keys), as called by publish_message on dict/list values.
NaN and the infinities print exactly as json.dumps prints them
(allow_nan defaults to True).  A float prints in exact
mantissa/exponent form rather than Python's shortest repr; either text
reads back to the same modelled value. -/
def jsonDumps : PyVal → String
  | PyVal.vnone => "null"
  | PyVal.vbool true => "true"
  | PyVal.vbool false => "false"
  | PyVal.vint n => toString n
  | PyVal.vfloat m e => toString m ++ "e" ++ toString e
  | PyVal.vnan => "NaN"
  | PyVal.vinf false => "Infinity"
  | PyVal.vinf true => "-Infinity"
  | PyVal.vstr s => "\"" ++ escapeString s ++ "\""
  | PyVal.vlist xs => "[" ++ dumpsItems xs ++ "]"
  | PyVal.vdict kvs => "\x7b" ++ dumpsMembers kvs ++ "\x7d"

def dumpsItems : List PyVal → String
  | [] => ""
  | [x] => jsonDumps x
  | x :: y :: xs => jsonDumps x ++ ", " ++ dumpsItems (y :: xs)

def dumpsMembers : List (String × PyVal) → String
  | [] => ""
  | [(k, v)] => "\"" ++ escapeString k ++ "\": " ++ jsonDumps v
  | (k, v) :: m :: kvs =>
    "\"" ++ escapeString k ++ "\": " ++ jsonDumps v ++ ", " ++ dumpsMembers (m :: kvs)

end

/-- Skip JSON whitespace. -/
def skipWs : List Char → List Char
  | [] => []
  | c :: cs => if c = ' ' || c = '\n' || c = '\t' || c = '\r' then skipWs cs else c :: cs

/-- The single-character escape sequences json.loads accepts; the \\u
form is handled separately in parseStringBody. -/
def unescapeChar (e : Char) : Option Char :=
  if e = '"' ∨ e = '\\' ∨ e = '/' then some e
  else if e = 'n' then some '\n'
  else if e = 't' then some '\t'
  else if e = 'r' then some '\r'
  else if e = 'b' then some '\x08'
  else if e = 'f' then some '\x0c'
  else none

/-- The value of one hexadecimal digit. -/
def hexDigitVal (c : Char) : Option Nat :=
  if '0' ≤ c ∧ c ≤ '9' then some (c.toNat - 48)
  else if 'a' ≤ c ∧ c ≤ 'f' then some (c.toNat - 87)
  else if 'A' ≤ c ∧ c ≤ 'F' then some (c.toNat - 55)
  else none

/-- The code unit named by the four hex digits of a \\u escape. -/
def hexQuad (a b c d : Char) : Option Nat :=
  match hexDigitVal a, hexDigitVal b, hexDigitVal c, hexDigitVal d with
  | some va, some vb, some vc, some vd =>
    some (((va * 16 + vb) * 16 + vc) * 16 + vd)
  | _, _, _, _ => none

/-- Parse a JSON string body after the opening quote; returns the decoded
characters and the input remaining after the closing quote.  \\u escapes
are decoded, with a high/low surrogate pair combined into one scalar as
json.loads does.  A lone surrogate is kept by Python inside its str;
Lean strings hold only Unicode scalars, so the model maps it to U+FFFD
(the parse still succeeds, matching json.loads).  Raw control characters
are accepted here though strict json.loads rejects them; that only
shrinks the model's decode-failure set, never grows it. -/
def parseStringBody : Nat → List Char → Option (List Char × List Char)
  | 0, _ => none
  | _ + 1, [] => none
  | _ + 1, '"' :: cs => some ([], cs)
  | fuel + 1, '\\' :: 'u' :: a :: b :: c :: d :: '\\' :: 'u' :: a2 :: b2 :: c2 :: d2 :: cs =>
    (match hexQuad a b c d, hexQuad a2 b2 c2 d2 with
     | none, _ => none
     | some n, other =>
       if 55296 ≤ n ∧ n < 56320 then
         match other with
         | none => none
         | some n2 =>
           if 56320 ≤ n2 ∧ n2 < 57344 then
             match parseStringBody fuel cs with
             | none => none
             | some (body, rest) =>
               some (Char.ofNat (65536 + (n - 55296) * 1024 + (n2 - 56320)) :: body, rest)
           else
             match parseStringBody fuel ('\\' :: 'u' :: a2 :: b2 :: c2 :: d2 :: cs) with
             | none => none
             | some (body, rest) => some ('\uFFFD' :: body, rest)
       else
         match parseStringBody fuel ('\\' :: 'u' :: a2 :: b2 :: c2 :: d2 :: cs) with
         | none => none
         | some (body, rest) =>
           some ((if 56320 ≤ n ∧ n < 57344 then '\uFFFD' else Char.ofNat n) :: body, rest))
  | fuel + 1, '\\' :: 'u' :: a :: b :: c :: d :: cs =>
    (match hexQuad a b c d with
     | none => none
     | some n =>
       match parseStringBody fuel cs with
       | none => none
       | some (body, rest) =>
         some ((if 55296 ≤ n ∧ n < 57344 then '\uFFFD' else Char.ofNat n) :: body, rest))
  | _ + 1, '\\' :: [] => none
  | fuel + 1, '\\' :: e :: cs =>
    (match unescapeChar e with
     | none => none
     | some ec =>
       match parseStringBody fuel cs with
       | none => none
       | some (body, rest) => some (ec :: body, rest))
  | fuel + 1, c :: cs =>
    match parseStringBody fuel cs with
    | none => none
    | some (body, rest) => some (c :: body, rest)

/-- Take a maximal run of decimal digits. -/
def takeDigits : List Char → (List Char × List Char)
  | [] => ([], [])
  | c :: cs =>
    if c.isDigit then
      let p := takeDigits cs
      (c :: p.1, p.2)
    else ([], c :: cs)

def digitsToNat (acc : Nat) : List Char → Nat
  | [] => acc
  | c :: cs => digitsToNat (acc * 10 + (c.toNat - 48)) cs

/-- The tail of an exponent after the e/E marker: an optional sign and
at least one digit.  none when malformed, in which case the number ends
before the marker, exactly as json's NUMBER_RE matches. -/
def parseExpTail (r : List Char) : Option (Int × List Char) :=
  let q : Bool × List Char := match r with
    | '+' :: r2 => (false, r2)
    | '-' :: r2 => (true, r2)
    | _ => (false, r)
  let ds := takeDigits q.2
  if ds.1.isEmpty then none
  else
    let v : Int := Int.ofNat (digitsToNat 0 ds.1)
    some ((if q.1 then -v else v), ds.2)

/-- Parse a JSON number literal, following json's grammar: optional
minus, an integer part with no leading zero, an optional fraction
(kept only when at least one digit follows the dot) and an optional
exponent (kept only when well formed), as NUMBER_RE matches greedily.
A plain integer becomes a Python int; a fraction or exponent makes it a
float, carried as the literal's exact decimal value. -/
def parseNum (l : List Char) : Option (PyVal × List Char) :=
  let p : Bool × List Char := match l with
    | '-' :: r => (true, r)
    | _ => (false, l)
  let d := takeDigits p.2
  match d.1 with
  | [] => none
  | c0 :: crest =>
    if c0 = '0' ∧ crest ≠ [] then none
    else
      let fr : List Char × List Char := match d.2 with
        | '.' :: r =>
          let f := takeDigits r
          if f.1.isEmpty then ([], d.2) else (f.1, f.2)
        | _ => ([], d.2)
      let ex : Option Int × List Char := match fr.2 with
        | 'e' :: r =>
          (match parseExpTail r with
           | some (v, rest) => (some v, rest)
           | none => (none, fr.2))
        | 'E' :: r =>
          (match parseExpTail r with
           | some (v, rest) => (some v, rest)
           | none => (none, fr.2))
        | _ => (none, fr.2)
      let mantNat := digitsToNat 0 (d.1 ++ fr.1)
      let mant : Int := if p.1 then -(Int.ofNat mantNat) else Int.ofNat mantNat
      match ex.1 with
      | none =>
        if fr.1.isEmpty then some (PyVal.vint mant, ex.2)
        else some (PyVal.vfloat mant (-(fr.1.length : Int)), ex.2)
      | some ev => some (PyVal.vfloat mant (ev - (fr.1.length : Int)), ex.2)

/-- Building a dict from parsed members: a repeated key overwrites the
value in place, as Python dict construction does (the last duplicate
wins, at the first occurrence's position). -/
def dedupKeys (kvs : List (String × PyVal)) : List (String × PyVal) :=
  kvs.foldl (fun m kv => aupdate m kv.1 kv.2) []

mutual

/-- Fuel-indexed recursive-descent JSON parser modelling json.loads as
attempted on every wire value by read_messages
(src/message_bus/redis_streams.py lines 318-325).  The NaN, Infinity and
-Infinity constants are accepted, as json.loads does by default. -/
def parseVal : Nat → List Char → Option (PyVal × List Char)
  | 0, _ => none
  | Nat.succ fuel, l =>
    match skipWs l with
    | 'n' :: 'u' :: 'l' :: 'l' :: r => some (PyVal.vnone, r)
    | 't' :: 'r' :: 'u' :: 'e' :: r => some (PyVal.vbool true, r)
    | 'f' :: 'a' :: 'l' :: 's' :: 'e' :: r => some (PyVal.vbool false, r)
    | 'N' :: 'a' :: 'N' :: r => some (PyVal.vnan, r)
    | 'I' :: 'n' :: 'f' :: 'i' :: 'n' :: 'i' :: 't' :: 'y' :: r =>
      some (PyVal.vinf false, r)
    | '-' :: 'I' :: 'n' :: 'f' :: 'i' :: 'n' :: 'i' :: 't' :: 'y' :: r =>
      some (PyVal.vinf true, r)
    | '"' :: r =>
      match parseStringBody (r.length + 1) r with
      | none => none
      | some (body, rest) => some (PyVal.vstr (String.mk body), rest)
    | '[' :: r =>
      (match skipWs r with
       | ']' :: r2 => some (PyVal.vlist [], r2)
       | r2 =>
         match parseItems fuel r2 with
         | none => none
         | some (xs, rest) => some (PyVal.vlist xs, rest))
    | '\x7b' :: r =>
      (match skipWs r with
       | '\x7d' :: r2 => some (PyVal.vdict [], r2)
       | r2 =>
         match parseMembers fuel r2 with
         | none => none
         | some (kvs, rest) => some (PyVal.vdict (dedupKeys kvs), rest))
    | l2 => parseNum l2

/-- Parse the items of a non-empty JSON array up to the closing bracket. -/
def parseItems : Nat → List Char → Option (List PyVal × List Char)
  | 0, _ => none
  | Nat.succ fuel, l =>
    match parseVal fuel l with
    | none => none
    | some (v, rest) =>
      match skipWs rest with
      | ',' :: r2 =>
        (match parseItems fuel r2 with
         | none => none
         | some (xs, rest2) => some (v :: xs, rest2))
      | ']' :: r2 => some ([v], r2)
      | _ => none

/-- Parse the members of a non-empty JSON object up to the closing brace. -/
def parseMembers : Nat → List Char → Option (List (String × PyVal) × List Char)
  | 0, _ => none
  | Nat.succ fuel, l =>
    match skipWs l with
    | '"' :: r =>
      (match parseStringBody (r.length + 1) r with
       | none => none
       | some (kbody, rest) =>
         match skipWs rest with
         | ':' :: r2 =>
           (match parseVal fuel r2 with
            | none => none
            | some (v, rest2) =>
              match skipWs rest2 with
              | ',' :: r3 =>
                (match parseMembers fuel r3 with
                 | none => none
                 | some (kvs, rest3) => some ((String.mk kbody, v) :: kvs, rest3))
              | '\x7d' :: r3 => some ([(String.mk kbody, v)], r3)
              | _ => none)
         | _ => none)
    | _ => none

end

/-- json.loads on a whole wire value: the parse must consume the entire
input up to trailing whitespace, else the decode fails.  Every successful
level of nesting consumes at least one input character, so fuel
length + 2 never runs out on accepted inputs. -/
def jsonLoads (s : String) : Option PyVal :=
  match parseVal (s.length + 2) s.data with
  | none => none
  | some (v, rest) => if (skipWs rest).isEmpty then some v else none

mutual

/-- No NaN anywhere inside the value.  Python's float NaN compares
unequal to itself, so a payload containing NaN is never reproduced as
an equal dict even though its wire text reparses; the round-trip
theorem excludes such payloads. -/
def nanFree : PyVal → Bool
  | PyVal.vnan => false
  | PyVal.vlist xs => nanFreeItems xs
  | PyVal.vdict kvs => nanFreeMembers kvs
  | _ => true

def nanFreeItems : List PyVal → Bool
  | [] => true
  | x :: xs => nanFree x && nanFreeItems xs

def nanFreeMembers : List (String × PyVal) → Bool
  | [] => true
  | (_, v) :: kvs => nanFree v && nanFreeMembers kvs

end

/-- One wire value as produced by publish_message: dict/list values are
JSON-encoded, every other value goes through str(). -/
def serializeValue : PyVal → String
  | PyVal.vdict kvs => jsonDumps (PyVal.vdict kvs)
  | PyVal.vlist xs => jsonDumps (PyVal.vlist xs)
  | v => pyStr v

/-- publish_message: flatten the message dict into a string-keyed map of
string values (src/message_bus/redis_streams.py lines 273-280). -/
def serializeWire (m : List (String × PyVal)) : List (String × String) :=
  m.map (fun kv => (kv.1, serializeValue kv.2))

/-- read_messages: attempt a JSON decode of each value, falling back to
the raw string (src/message_bus/redis_streams.py lines 318-325). -/
def deserializeValue (s : String) : PyVal :=
  match jsonLoads s with
  | some v => v
  | none => PyVal.vstr s

def deserializeWire (m : List (String × String)) : List (String × PyVal) :=
  m.map (fun kv => (kv.1, deserializeValue kv.2))

/-- The fields of an envelope the round-trip claim talks about, as they
come out of model_dump(): enum fields by their value string, absent
recipient/correlation_id as Python None. -/
structure EnvelopeW where
  id : String
  type : String
  sender : String
  recipient : Option String
  payload : List (String × PyVal)
  correlation_id : Option String

def optToPy : Option String → PyVal
  | none => PyVal.vnone
  | some s => PyVal.vstr s

/-- The flattened string-keyed map handed to publish_message for an
envelope (model_dump of the claim-relevant fields). -/
def envelopeWireMap (e : EnvelopeW) : List (String × PyVal) :=
  [("id", PyVal.vstr e.id),
   ("type", PyVal.vstr e.type),
   ("sender", PyVal.vstr e.sender),
   ("recipient", optToPy e.recipient),
   ("payload", PyVal.vdict e.payload),
   ("correlation_id", optToPy e.correlation_id)]

/-- Serialize an envelope to the wire and read it back. -/
def envRoundTrip (e : EnvelopeW) : List (String × PyVal) :=
  deserializeWire (serializeWire (envelopeWireMap e))

/-- Association-list delete, modelling Python del d[k] (keys are unique
in every dict the code builds, so deleting the first occurrence is
exact). -/
def adelete {α : Type} : List (String × α) → String → List (String × α)
  | [], _ => []
  | (k, v) :: rest, key => if k = key then rest else (k, v) :: adelete rest key

/-- Agent lifecycle states (src/agents/base.py AgentState). -/
inductive AgentState where
  | initializing : AgentState
  | idle : AgentState
  | busy : AgentState
  | paused : AgentState
  | stopping : AgentState
  | stopped : AgentState
  | error : AgentState
deriving DecidableEq

/-- Outcome of running a dispatched handler: normal return or a raised
exception carrying str(e). -/
inductive HandlerOutcome where
  | ok : HandlerOutcome
  | err : String → HandlerOutcome

/-- A message as seen by EnhancedAgent.process_message. -/
structure MsgW where
  id : String
  type : String
  sender : String
  recipient : Option String := none
  payload : List (String × PyVal) := []
  correlation_id : Option String := none
  reply_to : Option String := none

/-- Handlers dispatched by type key. -/
def MessageHandler : Type := MsgW → HandlerOutcome

/-- EnhancedAgent.register_message_handler: plain dict assignment, so a
later registration for the same key replaces the earlier one
(src/agents/enhanced_agent.py lines 79-86). -/
def registerMessageHandler {α : Type} (table : List (String × α)) (message_type : String)
    (handler : α) : List (String × α) :=
  aupdate table message_type handler

/-- The dispatch lookup performed by process_message (lines 100-102):
the handler that fires for a message type, if a custom one is
registered. -/
def dispatchHandler {α : Type} (table : List (String × α)) (mtype : String) : Option α :=
  alookup table mtype

/-- Python truthiness of message.reply_to (None and "" are falsy). -/
def replyToTruthy (m : MsgW) : Bool :=
  match m.reply_to with
  | some r => decide (r ≠ "")
  | none => false

/-- The error response built in process_message's except block via
MessageFactory.create_direct_message: a NOTIFICATION addressed to the
original sender with payload the error text and correlation_id the
original envelope id (src/agents/enhanced_agent.py lines 121-128).  The
fresh uuid of the reply is modelled as "fresh-id". -/
def errorNotification (agentId : String) (m : MsgW) (emsg : String) : MsgW :=
  { id := "fresh-id", type := "notification", sender := agentId,
    recipient := some m.sender,
    payload := [("error", PyVal.vstr emsg)],
    correlation_id := some m.id, reply_to := none }

/-- EnhancedAgent.process_message (src/agents/enhanced_agent.py lines
88-128): dispatch to the registered handler for the message type, else
to the built-in logging branches (which never raise and send nothing).
A handler exception is caught here; when the envelope's reply_to is
truthy an error notification is sent to the sender.  Returns the
messages sent.  No exception escapes this function. -/
def processMessage (agentId : String) (handlers : List (String × MessageHandler))
    (m : MsgW) : List MsgW :=
  match dispatchHandler handlers m.type with
  | some h =>
    (match h m with
     | HandlerOutcome.ok => []
     | HandlerOutcome.err emsg =>
       if replyToTruthy m then [errorNotification agentId m emsg] else [])
  | none => []

/-- One iteration of Agent._process_messages (src/agents/base.py lines
196-209) around process_message: the state is set to busy, the message
processed, and — because process_message swallows handler exceptions —
the iteration always reaches the line that sets the state back to idle.
The state:=error branch of the loop fires only when process_message
itself raises, which the embedded function never does.  Returns the
final state and the messages sent. -/
def loopStep (agentId : String) (handlers : List (String × MessageHandler))
    (m : MsgW) (_st : AgentState) : AgentState × List MsgW :=
  (AgentState.idle, processMessage agentId handlers m)

/-- A PendingRequest record as stored by request_assistance
(src/agents/enhanced_agent.py lines 205-212), with the fields the
response handler later adds. -/
structure PendingRequest where
  recipient : String
  request_type : String
  context : List (String × PyVal)
  created_at : Int
  expires_at : Int
  status : String
  response : Option (List (String × PyVal)) := none
  response_time : Option Int := none

/-- EnhancedAgent._handle_assistance_response (src/agents/enhanced_agent.py
lines 354-367): when the message carries a truthy correlation_id that is
a tracked request id, set status fulfilled and store the payload and the
current time.  No check of the current status is made. -/
def handleAssistanceResponse (pending : List (String × PendingRequest))
    (correlation_id : Option String) (payload : List (String × PyVal)) (now : Int) :
    List (String × PendingRequest) :=
  match correlation_id with
  | none => pending
  | some c =>
    if c = "" then pending
    else
      match alookup pending c with
      | none => pending
      | some req =>
        aupdate pending c
          { req with status := "fulfilled", response := some payload,
                     response_time := some now }

/-- EnhancedAgent._cleanup_expired_request after the sleep
(src/agents/enhanced_agent.py lines 273-277): flip a tracked request to
expired only if its status is still pending. -/
def cleanupExpiredRequest (pending : List (String × PendingRequest))
    (request_id : String) : List (String × PendingRequest) :=
  match alookup pending request_id with
  | none => pending
  | some req =>
    if req.status = "pending" then
      aupdate pending request_id { req with status := "expired" }
    else pending

/-- An ExpressedNeed record as stored by NeedsProtocol.express_need
(src/agents/needs/protocol.py lines 112-121). -/
structure ExpressedNeed where
  need_type : String
  description : String
  required_capabilities : List String
  context : List (String × PyVal)
  created_at : Int
  expires_at : Int
  status : String
  fulfillments : List (String × List (String × PyVal) × Int)

/-- NeedsProtocol._cleanup_expired_need after the sleep
(src/agents/needs/protocol.py lines 182-186): flip a tracked need to
expired only if its status is still pending. -/
def cleanupExpiredNeed (needs : List (String × ExpressedNeed))
    (need_id : String) : List (String × ExpressedNeed) :=
  match alookup needs need_id with
  | none => needs
  | some need =>
    if need.status = "pending" then
      aupdate needs need_id { need with status := "expired" }
    else needs

/-- The capability check of EnhancedAgent._handle_need_expression
(src/agents/enhanced_agent.py lines 378-379): the payload's
required_capabilities value (none models a missing key, whose default is
the empty list).  The check passes when the list is empty (falsy) or the
agent shares at least one listed capability; a non-string entry is never
a member of the agent's string set. -/
def needMatches (required_capabilities : Option (List PyVal)) (agentCaps : List String) : Bool :=
  let rc := required_capabilities.getD []
  rc.isEmpty || rc.any (fun v =>
    match v with
    | PyVal.vstr s => agentCaps.contains s
    | _ => false)

/-- A feedback_data value as the summarizer distinguishes them:
numbers (Python bools are ints, so they count as numeric), strings,
lists of strings, or anything else. -/
inductive FVal where
  | num : ℚ → FVal
  | fbool : Bool → FVal
  | fstr : String → FVal
  | flist : List String → FVal
  | fnone : FVal
deriving DecidableEq

/-- isinstance(value, (int, float)) together with the numeric value used
in sums (True counts as 1, False as 0). -/
def numericValue : FVal → Option ℚ
  | FVal.num q => some q
  | FVal.fbool b => some (if b then 1 else 0)
  | _ => none

/-- A row of the feedback table (src/agents/feedback/manager.py Feedback
model).  created_at is a UTC timestamp in seconds. -/
structure FeedbackRec where
  sender_id : String
  recipient_id : String
  content_id : Option String := none
  message_id : Option String := none
  feedback_type : String := "general"
  feedback_data : List (String × FVal)
  created_at : Int
deriving DecidableEq

/-- The query of get_feedback_summary (src/agents/feedback/manager.py
lines 171-181): records for the recipient, optionally of one type,
created within the last days*86400 seconds. -/
def queryFeedback (records : List FeedbackRec) (recipient_id : String)
    (feedback_type : Option String) (days : Int) (now : Int) : List FeedbackRec :=
  records.filter (fun r =>
    r.recipient_id == recipient_id &&
    (match feedback_type with
     | none => true
     | some t => r.feedback_type == t) &&
    decide (now - days * 86400 ≤ r.created_at))

/-- scores.setdefault(key, []).append(value): append a value to a key's
score list, creating the key at the end on first sight. -/
def addScore (scores : List (String × List ℚ)) (k : String) (q : ℚ) :
    List (String × List ℚ) :=
  match alookup scores k with
  | some vs => aupdate scores k (vs ++ [q])
  | none => scores ++ [(k, [q])]

/-- The inner loop of score extraction (src/agents/feedback/manager.py
lines 199-204): every numeric-valued field except the key "timestamp"
contributes to that key's score list. -/
def collectRecordScores (scores : List (String × List ℚ))
    (data : List (String × FVal)) : List (String × List ℚ) :=
  data.foldl (fun sc kv =>
    match numericValue kv.2 with
    | some q => if kv.1 ≠ "timestamp" then addScore sc kv.1 q else sc
    | none => sc) scores

def collectScores (records : List FeedbackRec) : List (String × List ℚ) :=
  records.foldl (fun sc r => collectRecordScores sc r.feedback_data) []

/-- suggestions.extend(value): a list extends by its items, a string by
its characters; extending by a number or None raises TypeError in
Python, modelled as failure. -/
def suggestionsOf : FVal → Option (List String)
  | FVal.flist xs => some xs
  | FVal.fstr s => some (s.data.map (fun c => String.mk [c]))
  | _ => none

/-- Suggestion extraction over the records (src/agents/feedback/manager.py
lines 206-208); none models the TypeError raised on a non-iterable
"suggestions" value. -/
def collectSuggestions (records : List FeedbackRec) : Option (List String) :=
  records.foldlM (fun acc r =>
    match alookup r.feedback_data "suggestions" with
    | none => some acc
    | some v => (suggestionsOf v).map (fun xs => acc ++ xs)) []

/-- suggestion_counts[s] = suggestion_counts.get(s, 0) + 1 -/
def bumpCount (counts : List (String × Nat)) (s : String) : List (String × Nat) :=
  match alookup counts s with
  | some n => aupdate counts s (n + 1)
  | none => counts ++ [(s, 1)]

def countSuggestions (l : List String) : List (String × Nat) :=
  l.foldl bumpCount []

/-- Stable insertion keeping counts in descending order, modelling
Python's stable sorted(..., reverse=True) on the count. -/
def insertByCountDesc (x : String × Nat) : List (String × Nat) → List (String × Nat)
  | [] => [x]
  | y :: ys => if x.2 ≤ y.2 then y :: insertByCountDesc x ys else x :: y :: ys

/-- Top five suggestions by frequency (src/agents/feedback/manager.py
lines 215-225). -/
def topSuggestions (l : List String) : List String :=
  (((countSuggestions l).foldl (fun acc x => insertByCountDesc x acc) []).take 5).map
    (fun kv => kv.1)

/-- The summary dict built by get_feedback_summary. -/
structure FeedbackSummary where
  recipient_id : String
  feedback_type : Option String
  days : Int
  count : Nat
  average_scores : List (String × ℚ)
  common_suggestions : List String
  improvement_areas : List String
deriving DecidableEq

/-- sum(values) / len(values) if values else 0 -/
def averageScores (scores : List (String × List ℚ)) : List (String × ℚ) :=
  scores.map (fun kv => (kv.1, if kv.2.isEmpty then 0 else kv.2.sum / kv.2.length))

/-- FeedbackManager.get_feedback_summary (src/agents/feedback/manager.py
lines 154-232).  Improvement areas are the averaged fields strictly
below 7.0.  Returns none when Python would raise on a non-iterable
"suggestions" value. -/
def getFeedbackSummary (records : List FeedbackRec) (recipient_id : String)
    (feedback_type : Option String) (days : Int) (now : Int) : Option FeedbackSummary :=
  let recs := queryFeedback records recipient_id feedback_type days now
  match collectSuggestions recs with
  | none => none
  | some suggs =>
    let avgs := averageScores (collectScores recs)
    some { recipient_id := recipient_id, feedback_type := feedback_type, days := days,
           count := recs.length,
           average_scores := avgs,
           common_suggestions := topSuggestions suggs,
           improvement_areas := (avgs.filter (fun kv => kv.2 < 7)).map (fun kv => kv.1) }

/-- The analysis dict built by FeedbackAnalyzer.analyze_agent_performance
(src/agents/feedback/manager.py lines 246-284). -/
structure PerformanceAnalysis where
  agent_id : String
  days : Int
  feedback_count : Nat
  performance_scores : List (String × ℚ)
  strengths : List String
  weaknesses : List String
  improvement_suggestions : List String
  trend : String
deriving DecidableEq

/-- FeedbackAnalyzer.analyze_agent_performance: buckets averaged scores
at least 0.8 as strengths and at most 0.6 as weaknesses. -/
def analyzeAgentPerformance (records : List FeedbackRec) (agent_id : String)
    (days : Int) (now : Int) : Option PerformanceAnalysis :=
  (getFeedbackSummary records agent_id none days now).map (fun s =>
    { agent_id := agent_id, days := days, feedback_count := s.count,
      performance_scores := s.average_scores,
      strengths := (s.average_scores.filter (fun kv => 4/5 ≤ kv.2)).map (fun kv => kv.1),
      weaknesses := (s.average_scores.filter (fun kv => kv.2 ≤ 3/5)).map (fun kv => kv.1),
      improvement_suggestions := s.common_suggestions, trend := "stable" })

/-- A registry entry (src/agents/service_discovery.py lines 107-112):
the dict stored under the agent's id, which repeats the id. -/
structure RegAgent where
  id : String
  name : String
  capabilities : List String
  status : String
deriving DecidableEq

/-- AgentRegistry state: the agent dict and the inverted
capability → agent-id-set index (sets as duplicate-free lists). -/
structure Registry where
  agents : List (String × RegAgent)
  capabilities : List (String × List String)

/-- Python set.add. -/
def setAdd (l : List String) (x : String) : List String :=
  if x ∈ l then l else l ++ [x]

/-- One iteration of the capability-registration loop
(src/agents/service_discovery.py lines 115-118). -/
def addCapability (caps : List (String × List String)) (agent_id cap : String) :
    List (String × List String) :=
  aupdate caps cap (setAdd ((alookup caps cap).getD []) agent_id)

/-- AgentRegistry._handle_agent_started (src/agents/service_discovery.py
lines 90-122): ignore events without a truthy agent_id and name, else
store the agent as active and index every advertised capability. -/
def handleAgentStarted (r : Registry) (agent_id name : String)
    (capabilities : List String) : Registry :=
  if agent_id = "" ∨ name = "" then r
  else
    { agents := aupdate r.agents agent_id
        { id := agent_id, name := name, capabilities := capabilities, status := "active" },
      capabilities := capabilities.foldl (fun cs c => addCapability cs agent_id c)
        r.capabilities }

/-- One iteration of the capability-removal loop
(src/agents/service_discovery.py lines 148-152): discard the agent from
the capability's set and delete the capability when the set empties. -/
def removeCapability (caps : List (String × List String)) (agent_id cap : String) :
    List (String × List String) :=
  match alookup caps cap with
  | none => caps
  | some s =>
    let s2 := s.filter (fun a => a ≠ agent_id)
    if s2.isEmpty then adelete caps cap else aupdate caps cap s2

/-- AgentRegistry._handle_agent_stopped (src/agents/service_discovery.py
lines 124-156): ignore events without a truthy agent_id or for unknown
agents, else mark the agent inactive and unindex its capabilities. -/
def handleAgentStopped (r : Registry) (agent_id : String) : Registry :=
  if agent_id = "" then r
  else
    match alookup r.agents agent_id with
    | none => r
    | some ag =>
      { agents := aupdate r.agents agent_id { ag with status := "inactive" },
        capabilities := ag.capabilities.foldl (fun cs c => removeCapability cs agent_id c)
          r.capabilities }

/-- AgentRegistry.get_agents_by_capability (src/agents/service_discovery.py
lines 169-179): the stored dicts of the indexed ids still present in the
agent dict. -/
def getAgentsByCapability (r : Registry) (cap : String) : List RegAgent :=
  ((alookup r.capabilities cap).getD []).filterMap (fun aid => alookup r.agents aid)

/-- Every registry reachable from lifecycle events satisfies this: each
stored agent dict repeats its own key as its id, and the capability
index has no duplicate keys (Python dicts cannot). -/
def RegistryWF (r : Registry) : Prop :=
  (∀ k ag, alookup r.agents k = some ag → ag.id = k) ∧
  (r.capabilities.map Prod.fst).Nodup

/-- A broadcast envelope (absent recipient and correlation_id) whose
sender happens to be a decimal string. -/
def c1Example : EnvelopeW :=
  { id := "id-1", type := "notification", sender := "123",
    recipient := none, payload := [("k", PyVal.vint 1)],
    correlation_id := none }

/-- A well-behaved unicast envelope for the amended round-trip claim. -/
def c1Good : EnvelopeW :=
  { id := "id-2", type := "assistance_request", sender := "agent-a",
    recipient := some "agent-b",
    payload := [("request_type", PyVal.vstr "help"), ("count", PyVal.vint 2)],
    correlation_id := some "id-0" }

/-- A tracked request map holding one already-expired request. -/
def c2Pending : List (String × PendingRequest) :=
  [("req-1", { recipient := "agent-b", request_type := "content", context := [],
               created_at := 0, expires_at := 60, status := "expired" })]

/-- A dispatch table whose only handler raises, paired with an envelope
that has no reply_to, for the C3 counterexample. -/
def c3Handlers : List (String × MessageHandler) :=
  [("custom", fun _ => HandlerOutcome.err "boom")]

def c3Msg : MsgW :=
  { id := "m-1", type := "custom", sender := "alice" }

/-- Same failing dispatch table for the C3 witness, with a reply_to set. -/
def c3wHandlers : List (String × MessageHandler) :=
  [("custom", fun _ => HandlerOutcome.err "boom")]

def c3wMsg : MsgW :=
  { id := "m-2", type := "custom", sender := "alice", reply_to := some "alice" }

/-- A still-pending request and an already-fulfilled need, with the
tracking maps holding them, for the C4 witness. -/
def c4Req : PendingRequest :=
  { recipient := "agent-b", request_type := "content", context := [],
    created_at := 0, expires_at := 60, status := "pending" }

def c4Pending : List (String × PendingRequest) := [("req-2", c4Req)]

def c4Need : ExpressedNeed :=
  { need_type := "data_source", description := "d",
    required_capabilities := ["storage"], context := [],
    created_at := 0, expires_at := 300, status := "fulfilled",
    fulfillments := [("agent-c", [], 10)] }

def c4Needs : List (String × ExpressedNeed) := [("need-1", c4Need)]

/-- Inputs for the C5 witness: an empty table, an old failing handler, a
new succeeding one, and an envelope of the contested key. -/
def c5h1 : MessageHandler := fun _ => HandlerOutcome.err "old"

def c5h2 : MessageHandler := fun _ => HandlerOutcome.ok

def c5Msg : MsgW := { id := "m-3", type := "custom", sender := "alice" }

/-- One feedback record whose only numeric field averages to 1, for the
C6 counterexample: 1 is not below 0.7 yet the code flags it (1 < 7.0). -/
def c6Rec : FeedbackRec :=
  { sender_id := "s", recipient_id := "r",
    feedback_data := [("quality", FVal.num 1)], created_at := 0 }

/-- The summary the code produces for c6Rec: the quality average of 1 is
flagged as an improvement area because the code's threshold is 7.0. -/
def c6Summary : FeedbackSummary :=
  { recipient_id := "r", feedback_type := none, days := 30, count := 1,
    average_scores := [("quality", 1)], common_suggestions := [],
    improvement_areas := ["quality"] }

/-- A feedback record carrying the numeric field quality, for Scenario D. -/
def c7Rec (q : ℚ) : FeedbackRec :=
  { sender_id := "s", recipient_id := "agent-x",
    feedback_data := [("quality", FVal.num q)], created_at := 0 }

/-- The summary Scenario D produces for quality = 8, 6, 5. -/
def c7Expected : FeedbackSummary :=
  { recipient_id := "agent-x", feedback_type := none, days := 30, count := 3,
    average_scores := [("quality", 19/3)],
    common_suggestions := [],
    improvement_areas := ["quality"] }

/-- Records carrying a numeric timestamp field, for the C10 witness. -/
def c10Recs : List FeedbackRec :=
  [{ sender_id := "s", recipient_id := "r",
     feedback_data := [("timestamp", FVal.num 999), ("quality", FVal.num 5)],
     created_at := 0 }]

/-- The summary and analysis the code produces for c10Recs: the numeric
timestamp field is excluded everywhere. -/
def c10Summary : FeedbackSummary :=
  { recipient_id := "r", feedback_type := none, days := 30, count := 1,
    average_scores := [("quality", 5)], common_suggestions := [],
    improvement_areas := ["quality"] }

def c10Analysis : PerformanceAnalysis :=
  { agent_id := "r", days := 30, feedback_count := 1,
    performance_scores := [("quality", 5)], strengths := ["quality"],
    weaknesses := [], improvement_suggestions := [], trend := "stable" }

/-- The empty registry, for the C8 witness. -/
def emptyRegistry : Registry := { agents := [], capabilities := [] }

/-- Claim C1 (counterexample): the serialize/deserialize round trip does
not reproduce an absent (None) recipient or correlation_id — both come
back as the raw string "None" — and a sender that happens to be a decimal
string comes back as an integer.  This falsifies the claim at the
concrete broadcast envelope c1Example. -/
theorem c1_roundtrip_counterexample :
    alookup (envRoundTrip c1Example) "recipient" = some (PyVal.vstr "None") ∧
    PyVal.vstr "None" ≠ optToPy c1Example.recipient ∧
    alookup (envRoundTrip c1Example) "correlation_id" = some (PyVal.vstr "None") ∧
    alookup (envRoundTrip c1Example) "sender" = some (PyVal.vint 123) ∧
    PyVal.vint 123 ≠ PyVal.vstr c1Example.sender := by
  refine ⟨rfl, fun h => PyVal.noConfusion h, rfl, rfl, fun h => PyVal.noConfusion h⟩

/-- Claim C1 (amended): the round trip reproduces type, sender, recipient,
payload and correlation_id for envelopes whose recipient and
correlation_id are present, whose type/sender/recipient/correlation_id
strings do not themselves decode as JSON (the decoder accepts
everything json.loads accepts: ints, floats with fraction or exponent,
NaN and the infinities, and strings with the full escape set), and
whose NaN-free payload dict JSON round-trips.  An absent recipient or
correlation_id is not reproduced: it is flattened to the string "None"
and read back as that string.  A NaN payload value is excluded because
Python's NaN compares unequal to itself, so such a payload is not
reproduced as an equal dict. -/
theorem c1_roundtrip_amended (e : EnvelopeW)
    (htype : jsonLoads e.type = none)
    (hsender : jsonLoads e.sender = none)
    (hrec : ∃ r, e.recipient = some r ∧ jsonLoads r = none)
    (hcorr : ∃ c, e.correlation_id = some c ∧ jsonLoads c = none)
    (_hnan : nanFree (PyVal.vdict e.payload) = true)
    (hpayload : jsonLoads (jsonDumps (PyVal.vdict e.payload)) = some (PyVal.vdict e.payload)) :
    alookup (envRoundTrip e) "type" = some (PyVal.vstr e.type) ∧
    alookup (envRoundTrip e) "sender" = some (PyVal.vstr e.sender) ∧
    alookup (envRoundTrip e) "recipient" = some (optToPy e.recipient) ∧
    alookup (envRoundTrip e) "payload" = some (PyVal.vdict e.payload) ∧
    alookup (envRoundTrip e) "correlation_id" = some (optToPy e.correlation_id) := by
  obtain ⟨r, hr, hrl⟩ := hrec
  obtain ⟨c, hc, hcl⟩ := hcorr
  simp only [envRoundTrip, envelopeWireMap, serializeWire, deserializeWire, List.map,
    serializeValue, hr, hc, optToPy, alookup, pyStr, deserializeValue, htype, hsender,
    hrl, hcl, hpayload]
  simp

/-- Witness for the amended round-trip claim at the concrete envelope
c1Good. -/
theorem c1_roundtrip_witness :
    alookup (envRoundTrip c1Good) "type" = some (PyVal.vstr c1Good.type) ∧
    alookup (envRoundTrip c1Good) "sender" = some (PyVal.vstr c1Good.sender) ∧
    alookup (envRoundTrip c1Good) "recipient" = some (optToPy c1Good.recipient) ∧
    alookup (envRoundTrip c1Good) "payload" = some (PyVal.vdict c1Good.payload) ∧
    alookup (envRoundTrip c1Good) "correlation_id" = some (optToPy c1Good.correlation_id) :=
  c1_roundtrip_amended c1Good rfl rfl ⟨"agent-b", rfl, rfl⟩ ⟨"id-0", rfl, rfl⟩ rfl rfl

/-- Looking up the key just updated yields the new value. -/
theorem alookup_aupdate_self {α : Type} (l : List (String × α)) (k : String) (v : α) :
    alookup (aupdate l k v) k = some v := by
  induction l with
  | nil => simp [aupdate, alookup]
  | cons kv rest ih =>
    obtain ⟨k1, w⟩ := kv
    by_cases h : k1 = k
    · simp [aupdate, h, alookup]
    · simp [aupdate, h, alookup, ih]

/-- Updating one key leaves lookups of other keys unchanged. -/
theorem alookup_aupdate_ne {α : Type} (l : List (String × α)) (k k' : String) (v : α)
    (h : k' ≠ k) : alookup (aupdate l k v) k' = alookup l k' := by
  induction l with
  | nil => simp [aupdate, alookup, Ne.symm h]
  | cons kv rest ih =>
    obtain ⟨k1, w⟩ := kv
    by_cases h1 : k1 = k
    · subst h1
      have hk : ¬ k1 = k' := fun hh => h (Eq.symm hh)
      simp [aupdate, alookup, hk]
    · simp only [aupdate, if_neg h1, alookup]
      by_cases h2 : k1 = k'
      · simp [h2]
      · simp [h2, ih]

/-- A second update of the same key supersedes the first. -/
theorem aupdate_aupdate_self {α : Type} (l : List (String × α)) (k : String) (v w : α) :
    aupdate (aupdate l k v) k w = aupdate l k w := by
  induction l with
  | nil => simp [aupdate]
  | cons kv rest ih =>
    obtain ⟨k1, u⟩ := kv
    by_cases h : k1 = k
    · simp [aupdate, h]
    · simp [aupdate, h, ih]

/-- Claim C2: handling an AssistanceResponse whose correlation_id is a
tracked request id sets that request's status to fulfilled and stores
the payload and a response timestamp, regardless of the request's
current status — in particular a request already marked expired is
flipped to fulfilled. -/
theorem c2_response_fulfills_unconditionally
    (pending : List (String × PendingRequest)) (c : String) (req : PendingRequest)
    (payload : List (String × PyVal)) (now : Int)
    (hc : c ≠ "") (hmem : alookup pending c = some req) :
    alookup (handleAssistanceResponse pending (some c) payload now) c =
      some { req with status := "fulfilled", response := some payload,
                      response_time := some now } := by
  simp [handleAssistanceResponse, hc, hmem, alookup_aupdate_self]

/-- Witness for C2 at a request already marked expired. -/
theorem c2_response_witness :
    alookup (handleAssistanceResponse c2Pending (some "req-1")
        [("content", PyVal.vstr "answer")] 100) "req-1" =
      some { recipient := "agent-b", request_type := "content", context := [],
             created_at := 0, expires_at := 60, status := "fulfilled",
             response := some [("content", PyVal.vstr "answer")],
             response_time := some 100 } :=
  c2_response_fulfills_unconditionally c2Pending "req-1"
    { recipient := "agent-b", request_type := "content", context := [],
      created_at := 0, expires_at := 60, status := "expired" }
    [("content", PyVal.vstr "answer")] 100 (by decide) rfl

/-- Claim C3 (counterexample): a handler exception on an envelope whose
reply_to is absent leaves the agent idle, not in the Error state, and
sends no error notification even though the envelope has a sender —
falsifying both the state transition and the reply-address fallback the
claim asserts. -/
theorem c3_handler_failure_counterexample :
    (loopStep "agent-b" c3Handlers c3Msg AgentState.idle).1 = AgentState.idle ∧
    (loopStep "agent-b" c3Handlers c3Msg AgentState.idle).1 ≠ AgentState.error ∧
    (loopStep "agent-b" c3Handlers c3Msg AgentState.idle).2 = [] :=
  ⟨rfl, fun h => AgentState.noConfusion h, rfl⟩

/-- Claim C3 (amended): a dispatched handler's exception is caught and
never re-raised; the loop iteration ends with the agent idle (the state
never becomes Error, because process_message swallows the exception
before the loop's error boundary); an error Notification with payload
the error text and correlation_id the original envelope's id is sent to
the envelope's sender — but only when the envelope's reply_to is truthy,
with no fallback to the sender as reply address. -/
theorem c3_handler_failure_amended (agentId : String)
    (handlers : List (String × MessageHandler)) (m : MsgW) (st : AgentState)
    (h : MessageHandler) (emsg : String)
    (hdisp : dispatchHandler handlers m.type = some h)
    (herr : h m = HandlerOutcome.err emsg) :
    (loopStep agentId handlers m st).1 = AgentState.idle ∧
    (replyToTruthy m = true →
      (loopStep agentId handlers m st).2 = [errorNotification agentId m emsg]) ∧
    (replyToTruthy m = false → (loopStep agentId handlers m st).2 = []) := by
  refine ⟨rfl, ?_, ?_⟩ <;> intro hr <;>
    simp [loopStep, processMessage, hdisp, herr, hr]

/-- Witness for amended C3 at a concrete failing handler with reply_to
set. -/
theorem c3_handler_failure_witness :
    (loopStep "agent-b" c3wHandlers c3wMsg AgentState.idle).1 = AgentState.idle ∧
    (replyToTruthy c3wMsg = true →
      (loopStep "agent-b" c3wHandlers c3wMsg AgentState.idle).2 =
        [errorNotification "agent-b" c3wMsg "boom"]) ∧
    (replyToTruthy c3wMsg = false →
      (loopStep "agent-b" c3wHandlers c3wMsg AgentState.idle).2 = []) :=
  c3_handler_failure_amended "agent-b" c3wHandlers c3wMsg AgentState.idle
    (fun _ => HandlerOutcome.err "boom") "boom" rfl rfl

/-- Claim C4: the timeout task's post-sleep body flips a tracked
request (and, in the needs protocol, a tracked need) to expired only
when its status is still pending; a record whose status is anything
else — in particular fulfilled — is left entirely unchanged. -/
theorem c4_timeout_only_pending
    (pending : List (String × PendingRequest)) (rid : String) (req : PendingRequest)
    (needs : List (String × ExpressedNeed)) (nid : String) (need : ExpressedNeed)
    (hreq : alookup pending rid = some req) (hneed : alookup needs nid = some need) :
    (req.status = "pending" →
      alookup (cleanupExpiredRequest pending rid) rid =
        some { req with status := "expired" }) ∧
    (req.status ≠ "pending" → cleanupExpiredRequest pending rid = pending) ∧
    (need.status = "pending" →
      alookup (cleanupExpiredNeed needs nid) nid =
        some { need with status := "expired" }) ∧
    (need.status ≠ "pending" → cleanupExpiredNeed needs nid = needs) := by
  refine ⟨?_, ?_, ?_, ?_⟩ <;> intro h <;>
    simp [cleanupExpiredRequest, cleanupExpiredNeed, hreq, hneed, h,
      alookup_aupdate_self]

/-- Witness for C4: a pending request expires, a fulfilled need is left
unchanged. -/
theorem c4_timeout_witness :
    (c4Req.status = "pending" →
      alookup (cleanupExpiredRequest c4Pending "req-2") "req-2" =
        some { c4Req with status := "expired" }) ∧
    (c4Req.status ≠ "pending" → cleanupExpiredRequest c4Pending "req-2" = c4Pending) ∧
    (c4Need.status = "pending" →
      alookup (cleanupExpiredNeed c4Needs "need-1") "need-1" =
        some { c4Need with status := "expired" }) ∧
    (c4Need.status ≠ "pending" → cleanupExpiredNeed c4Needs "need-1" = c4Needs) :=
  c4_timeout_only_pending c4Pending "req-2" c4Req c4Needs "need-1" c4Need rfl rfl

/-- Claim C5: registering a handler for a key that already has one
replaces the earlier handler (the double registration equals the single
newest one), and every envelope of that key is dispatched to — and
processed by — the newest handler only. -/
theorem c5_last_registered_wins (agentId : String)
    (table : List (String × MessageHandler)) (k : String) (h1 h2 : MessageHandler)
    (m : MsgW) (hm : m.type = k) :
    registerMessageHandler (registerMessageHandler table k h1) k h2 =
      registerMessageHandler table k h2 ∧
    dispatchHandler (registerMessageHandler (registerMessageHandler table k h1) k h2)
      m.type = some h2 ∧
    processMessage agentId
        (registerMessageHandler (registerMessageHandler table k h1) k h2) m =
      processMessage agentId (registerMessageHandler table k h2) m := by
  refine ⟨aupdate_aupdate_self table k h1 h2, ?_, ?_⟩
  · rw [hm]
    simp [dispatchHandler, registerMessageHandler, alookup_aupdate_self]
  · rw [show registerMessageHandler (registerMessageHandler table k h1) k h2 =
        registerMessageHandler table k h2 from aupdate_aupdate_self table k h1 h2]

/-- Witness for C5 at a concrete table and envelope. -/
theorem c5_last_registered_wins_witness :
    registerMessageHandler (registerMessageHandler [] "custom" c5h1) "custom" c5h2 =
      registerMessageHandler [] "custom" c5h2 ∧
    dispatchHandler (registerMessageHandler (registerMessageHandler [] "custom" c5h1)
      "custom" c5h2) c5Msg.type = some c5h2 ∧
    processMessage "agent-b"
        (registerMessageHandler (registerMessageHandler [] "custom" c5h1) "custom" c5h2)
        c5Msg =
      processMessage "agent-b" (registerMessageHandler [] "custom" c5h2) c5Msg :=
  c5_last_registered_wins "agent-b" [] "custom" c5h1 c5h2 c5Msg rfl

/-- Claim C9: in the default need-expression handler the capability
check passes vacuously when the payload's required_capabilities list is
missing or empty, so the agent proceeds regardless of its own
capabilities; a non-empty list of capability strings passes exactly when
the agent shares at least one of them. -/
theorem c9_capability_matching (agentCaps : List String) (rc : List String)
    (hrc : rc ≠ []) :
    needMatches none agentCaps = true ∧
    needMatches (some []) agentCaps = true ∧
    (needMatches (some (rc.map PyVal.vstr)) agentCaps = true ↔ ∃ c ∈ rc, c ∈ agentCaps) := by
  refine ⟨rfl, rfl, ?_⟩
  simp [needMatches, List.isEmpty_iff, hrc, List.any_map, Function.comp,
    List.any_eq_true, List.elem_iff]

/-- Witness for C9 at a concrete capability list. -/
theorem c9_capability_matching_witness :
    needMatches none ["storage", "compute"] = true ∧
    needMatches (some []) ["storage", "compute"] = true ∧
    (needMatches (some (["storage"].map PyVal.vstr)) ["storage", "compute"] = true ↔
      ∃ c ∈ ["storage"], c ∈ ["storage", "compute"]) :=
  c9_capability_matching ["storage", "compute"] ["storage"] (by decide)

/-- A lookup fails exactly when the key is absent. -/
theorem alookup_eq_none_iff {α : Type} (l : List (String × α)) (k : String) :
    alookup l k = none ↔ k ∉ l.map Prod.fst := by
  induction l with
  | nil => simp [alookup]
  | cons kv rest ih =>
    obtain ⟨k1, v1⟩ := kv
    by_cases h : k1 = k
    · simp [alookup, h]
    · simp [alookup, h, ih, Ne.symm h]

/-- Updating a key that is present does not change the key list. -/
theorem keys_aupdate_of_lookup {α : Type} (l : List (String × α)) (k : String)
    (v0 w : α) (h : alookup l k = some v0) :
    (aupdate l k w).map Prod.fst = l.map Prod.fst := by
  induction l with
  | nil => simp [alookup] at h
  | cons kv rest ih =>
    obtain ⟨k1, v1⟩ := kv
    by_cases hk : k1 = k
    · simp [aupdate, hk]
    · simp only [alookup, if_neg hk] at h
      simp [aupdate, hk, ih h]

/-- addScore can only add the key it is given. -/
theorem addScore_keys_mem (sc : List (String × List ℚ)) (k : String) (q : ℚ)
    (x : String) (hx : x ∈ (addScore sc k q).map Prod.fst) :
    x ∈ sc.map Prod.fst ∨ x = k := by
  unfold addScore at hx
  cases h : alookup sc k with
  | some vs =>
    rw [h] at hx
    rw [keys_aupdate_of_lookup sc k vs (vs ++ [q]) h] at hx
    exact Or.inl hx
  | none =>
    rw [h] at hx
    simp only [List.map_append, List.mem_append, List.map_cons, List.map_nil,
      List.mem_cons, List.not_mem_nil, or_false] at hx
    exact hx

/-- addScore keeps the score keys duplicate-free. -/
theorem addScore_keys_nodup (sc : List (String × List ℚ)) (k : String) (q : ℚ)
    (hnd : (sc.map Prod.fst).Nodup) : ((addScore sc k q).map Prod.fst).Nodup := by
  unfold addScore
  cases h : alookup sc k with
  | some vs => rw [keys_aupdate_of_lookup sc k vs (vs ++ [q]) h]; exact hnd
  | none =>
    have hk : k ∉ sc.map Prod.fst := (alookup_eq_none_iff sc k).mp h
    simp only [List.map_append, List.map_cons, List.map_nil]
    refine List.Nodup.append hnd (List.nodup_singleton k) ?_
    intro a ha hb
    rw [List.mem_singleton] at hb
    subst hb
    exact hk ha

/-- Score collection over one record never creates a "timestamp" key. -/
theorem collectRecordScores_no_timestamp (data : List (String × FVal)) :
    ∀ sc : List (String × List ℚ), "timestamp" ∉ sc.map Prod.fst →
      "timestamp" ∉ (collectRecordScores sc data).map Prod.fst := by
  induction data with
  | nil => intro sc h; exact h
  | cons kv rest ih =>
    intro sc h
    show "timestamp" ∉ (collectRecordScores
      (match numericValue kv.2 with
       | some q => if kv.1 ≠ "timestamp" then addScore sc kv.1 q else sc
       | none => sc) rest).map Prod.fst
    apply ih
    cases hnv : numericValue kv.2 with
    | none => exact h
    | some q =>
      show "timestamp" ∉
        (if kv.1 ≠ "timestamp" then addScore sc kv.1 q else sc).map Prod.fst
      by_cases hk : kv.1 = "timestamp"
      · rw [if_neg (by simp [hk])]
        exact h
      · rw [if_pos hk]
        intro hmem
        rcases addScore_keys_mem sc kv.1 q "timestamp" hmem with hin | heq
        · exact h hin
        · exact hk heq.symm

/-- Score collection over one record keeps the keys duplicate-free. -/
theorem collectRecordScores_nodup (data : List (String × FVal)) :
    ∀ sc : List (String × List ℚ), (sc.map Prod.fst).Nodup →
      ((collectRecordScores sc data).map Prod.fst).Nodup := by
  induction data with
  | nil => intro sc h; exact h
  | cons kv rest ih =>
    intro sc h
    show ((collectRecordScores
      (match numericValue kv.2 with
       | some q => if kv.1 ≠ "timestamp" then addScore sc kv.1 q else sc
       | none => sc) rest).map Prod.fst).Nodup
    apply ih
    cases hnv : numericValue kv.2 with
    | none => exact h
    | some q =>
      show ((if kv.1 ≠ "timestamp" then addScore sc kv.1 q else sc).map Prod.fst).Nodup
      by_cases hk : kv.1 = "timestamp"
      · rw [if_neg (by simp [hk])]
        exact h
      · rw [if_pos hk]
        exact addScore_keys_nodup sc kv.1 q h

/-- Full score collection never contains a "timestamp" key. -/
theorem collectScores_no_timestamp (records : List FeedbackRec) :
    "timestamp" ∉ (collectScores records).map Prod.fst := by
  unfold collectScores
  have h : ∀ sc : List (String × List ℚ), "timestamp" ∉ sc.map Prod.fst →
      "timestamp" ∉ (records.foldl
        (fun sc r => collectRecordScores sc r.feedback_data) sc).map Prod.fst := by
    induction records with
    | nil => intro sc h; exact h
    | cons r rest ih =>
      intro sc h
      exact ih (collectRecordScores sc r.feedback_data)
        (collectRecordScores_no_timestamp r.feedback_data sc h)
  exact h [] (by simp)

/-- Full score collection has duplicate-free keys. -/
theorem collectScores_nodup (records : List FeedbackRec) :
    ((collectScores records).map Prod.fst).Nodup := by
  unfold collectScores
  have h : ∀ sc : List (String × List ℚ), (sc.map Prod.fst).Nodup →
      ((records.foldl
        (fun sc r => collectRecordScores sc r.feedback_data) sc).map Prod.fst).Nodup := by
    induction records with
    | nil => intro sc h; exact h
    | cons r rest ih =>
      intro sc h
      exact ih (collectRecordScores sc r.feedback_data)
        (collectRecordScores_nodup r.feedback_data sc h)
  exact h [] (by simp)

/-- Averaging preserves the key list. -/
theorem averageScores_keys (sc : List (String × List ℚ)) :
    (averageScores sc).map Prod.fst = sc.map Prod.fst := by
  simp [averageScores, List.map_map, Function.comp]

/-- A key of a filtered association list is a key of the original. -/
theorem mem_keys_of_mem_keys_filter {α : Type} (l : List (String × α))
    (p : String × α → Bool) (k : String)
    (h : k ∈ (l.filter p).map Prod.fst) : k ∈ l.map Prod.fst := by
  obtain ⟨kv, hmem, hfst⟩ := List.mem_map.mp h
  exact List.mem_map.mpr ⟨kv, (List.mem_filter.mp hmem).1, hfst⟩

/-- With duplicate-free keys, membership in the key list of a filtered
association list is lookup plus the predicate. -/
theorem mem_keys_filter_iff {α : Type} (l : List (String × α))
    (p : String × α → Bool) (k : String) (hnd : (l.map Prod.fst).Nodup) :
    k ∈ (l.filter p).map Prod.fst ↔ ∃ v, alookup l k = some v ∧ p (k, v) = true := by
  induction l with
  | nil => simp [alookup]
  | cons kv rest ih =>
    obtain ⟨k1, v1⟩ := kv
    simp only [List.map_cons, List.nodup_cons] at hnd
    obtain ⟨hk1, hrest⟩ := hnd
    by_cases hk : k1 = k
    · subst hk
      by_cases hp : p (k1, v1) = true
      · simp [List.filter, hp, alookup]
      · simp only [List.filter, hp, alookup, if_pos rfl]
        constructor
        · intro hmem
          exact absurd (mem_keys_of_mem_keys_filter rest p k1 hmem) hk1
        · rintro ⟨v, hv, hpv⟩
          cases hv
          exact absurd hpv hp
    · by_cases hp : p (k1, v1) = true
      · simp only [List.filter, hp, List.map_cons, List.mem_cons, alookup, if_neg hk]
        rw [ih hrest]
        constructor
        · rintro (h | h)
          · exact absurd h.symm hk
          · exact h
        · intro h; exact Or.inr h
      · simp only [List.filter, hp, alookup, if_neg hk]
        exact ih hrest

/-- The value of a successful summary in terms of the collection
pipeline, used to evaluate concrete calls. -/
theorem getFeedbackSummary_eq_some (records : List FeedbackRec) (recipient_id : String)
    (feedback_type : Option String) (days now : Int) (suggs : List String)
    (h : collectSuggestions (queryFeedback records recipient_id feedback_type days now) =
      some suggs) :
    getFeedbackSummary records recipient_id feedback_type days now =
      some { recipient_id := recipient_id, feedback_type := feedback_type, days := days,
             count := (queryFeedback records recipient_id feedback_type days now).length,
             average_scores := averageScores (collectScores
               (queryFeedback records recipient_id feedback_type days now)),
             common_suggestions := topSuggestions suggs,
             improvement_areas := ((averageScores (collectScores
               (queryFeedback records recipient_id feedback_type days now))).filter
                 (fun kv => kv.2 < 7)).map (fun kv => kv.1) } := by
  simp only [getFeedbackSummary, h]

/-- The score fields of a successful summary, in terms of the collection
pipeline. -/
theorem getFeedbackSummary_fields (records : List FeedbackRec) (recipient_id : String)
    (feedback_type : Option String) (days now : Int) (s : FeedbackSummary)
    (h : getFeedbackSummary records recipient_id feedback_type days now = some s) :
    s.average_scores =
      averageScores (collectScores
        (queryFeedback records recipient_id feedback_type days now)) ∧
    s.improvement_areas =
      ((averageScores (collectScores
        (queryFeedback records recipient_id feedback_type days now))).filter
          (fun kv => kv.2 < 7)).map (fun kv => kv.1) := by
  simp only [getFeedbackSummary] at h
  cases hcs : collectSuggestions (queryFeedback records recipient_id feedback_type days now) with
  | none => rw [hcs] at h; simp at h
  | some suggs =>
    rw [hcs] at h
    injection h with h2
    subst h2
    exact ⟨rfl, rfl⟩

/-- No successful summary mentions "timestamp" in its averaged scores or
improvement areas. -/
theorem summary_no_timestamp (records : List FeedbackRec) (recipient_id : String)
    (feedback_type : Option String) (days now : Int) (s : FeedbackSummary)
    (h : getFeedbackSummary records recipient_id feedback_type days now = some s) :
    "timestamp" ∉ s.average_scores.map Prod.fst ∧
    "timestamp" ∉ s.improvement_areas := by
  obtain ⟨havg, himp⟩ :=
    getFeedbackSummary_fields records recipient_id feedback_type days now s h
  have hkeys : "timestamp" ∉ (averageScores (collectScores
      (queryFeedback records recipient_id feedback_type days now))).map Prod.fst := by
    rw [averageScores_keys]
    exact collectScores_no_timestamp _
  constructor
  · rw [havg]; exact hkeys
  · rw [himp]
    intro hmem
    exact hkeys (mem_keys_of_mem_keys_filter _ _ _ hmem)

/-- Claim C6 (counterexample): a single in-window record with the numeric
field quality = 1 yields average 1, which is not below 0.7, yet the code
flags quality as an improvement area — the threshold in the code is 7.0,
not 0.7. -/
theorem c6_threshold_counterexample :
    getFeedbackSummary [c6Rec] "r" none 30 0 = some c6Summary ∧
    "quality" ∈ c6Summary.improvement_areas ∧
    alookup c6Summary.average_scores "quality" = some 1 ∧
    ¬ ((1 : ℚ) < 7 / 10) := by
  refine ⟨?_, by simp [c6Summary], rfl, by norm_num⟩
  rw [getFeedbackSummary_eq_some [c6Rec] "r" none 30 0 [] rfl]
  have hsc : collectScores (queryFeedback [c6Rec] "r" none 30 0) =
      [("quality", [1])] := rfl
  rw [hsc]
  norm_num [averageScores, List.sum, c6Summary, topSuggestions, countSuggestions,
    List.filter, queryFeedback, c6Rec]

/-- Claim C6 (amended): get_feedback_summary flags as improvement areas
exactly those averaged numeric feedback fields whose average over the
window is below the fixed threshold 7.0. -/
theorem c6_improvement_areas_amended (records : List FeedbackRec)
    (recipient_id : String) (feedback_type : Option String) (days now : Int)
    (s : FeedbackSummary) (k : String)
    (h : getFeedbackSummary records recipient_id feedback_type days now = some s) :
    k ∈ s.improvement_areas ↔ ∃ q, alookup s.average_scores k = some q ∧ q < 7 := by
  obtain ⟨havg, himp⟩ :=
    getFeedbackSummary_fields records recipient_id feedback_type days now s h
  rw [havg, himp]
  have hnd : ((averageScores (collectScores
      (queryFeedback records recipient_id feedback_type days now))).map Prod.fst).Nodup := by
    rw [averageScores_keys]
    exact collectScores_nodup _
  have hiff := mem_keys_filter_iff
    (averageScores (collectScores (queryFeedback records recipient_id feedback_type days now)))
    (fun kv => decide (kv.2 < 7)) k hnd
  simp only [decide_eq_true_eq] at hiff
  exact hiff

/-- Witness for amended C6 at the concrete record c6Rec. -/
theorem c6_improvement_areas_witness :
    "quality" ∈ c6Summary.improvement_areas ↔
      ∃ q, alookup c6Summary.average_scores "quality" = some q ∧ q < 7 :=
  c6_improvement_areas_amended [c6Rec] "r" none 30 0 c6Summary "quality" (by
    rw [getFeedbackSummary_eq_some [c6Rec] "r" none 30 0 [] rfl]
    have hsc : collectScores (queryFeedback [c6Rec] "r" none 30 0) =
        [("quality", [1])] := rfl
    rw [hsc]
    norm_num [averageScores, List.sum, c6Summary, topSuggestions, countSuggestions,
      List.filter, queryFeedback, c6Rec])

/-- Claim C7 (Scenario D): three in-window records with quality 8, 6, 5
average to 19/3 and quality is flagged as an improvement area under the
code's 7.0 threshold. -/
theorem c7_scenario_d :
    getFeedbackSummary [c7Rec 8, c7Rec 6, c7Rec 5] "agent-x" none 30 0 =
      some c7Expected ∧
    alookup c7Expected.average_scores "quality" = some (19 / 3) ∧
    "quality" ∈ c7Expected.improvement_areas := by
  refine ⟨?_, rfl, by simp [c7Expected]⟩
  rw [getFeedbackSummary_eq_some [c7Rec 8, c7Rec 6, c7Rec 5] "agent-x" none 30 0 [] rfl]
  have hsc : collectScores (queryFeedback [c7Rec 8, c7Rec 6, c7Rec 5] "agent-x" none 30 0) =
      [("quality", [8, 6, 5])] := rfl
  rw [hsc]
  norm_num [averageScores, List.sum, c7Expected, topSuggestions, countSuggestions,
    List.filter, queryFeedback, c7Rec]
  simp

/-- Claim C10: the numeric field "timestamp" is excluded from score
aggregation, so it never appears among the averaged scores or the
improvement areas of a summary, nor among the strengths or weaknesses
derived from them by analyze_agent_performance. -/
theorem c10_timestamp_excluded (records : List FeedbackRec) (recipient_id : String)
    (feedback_type : Option String) (days now : Int) (s : FeedbackSummary)
    (agent_id : String) (adays anow : Int) (analysis : PerformanceAnalysis)
    (hs : getFeedbackSummary records recipient_id feedback_type days now = some s)
    (ha : analyzeAgentPerformance records agent_id adays anow = some analysis) :
    "timestamp" ∉ s.average_scores.map Prod.fst ∧
    "timestamp" ∉ s.improvement_areas ∧
    "timestamp" ∉ analysis.performance_scores.map Prod.fst ∧
    "timestamp" ∉ analysis.strengths ∧
    "timestamp" ∉ analysis.weaknesses := by
  obtain ⟨hs1, hs2⟩ := summary_no_timestamp records recipient_id feedback_type days now s hs
  unfold analyzeAgentPerformance at ha
  rw [Option.map_eq_some'] at ha
  obtain ⟨s2, hs2eq, hfa⟩ := ha
  obtain ⟨ht1, _⟩ := summary_no_timestamp records agent_id none adays anow s2 hs2eq
  subst hfa
  refine ⟨hs1, hs2, ht1, ?_, ?_⟩
  · intro hmem
    exact ht1 (mem_keys_of_mem_keys_filter _ _ _ hmem)
  · intro hmem
    exact ht1 (mem_keys_of_mem_keys_filter _ _ _ hmem)

/-- Witness for C10 at records carrying a numeric timestamp field. -/
theorem c10_timestamp_excluded_witness :
    "timestamp" ∉ c10Summary.average_scores.map Prod.fst ∧
    "timestamp" ∉ c10Summary.improvement_areas ∧
    "timestamp" ∉ c10Analysis.performance_scores.map Prod.fst ∧
    "timestamp" ∉ c10Analysis.strengths ∧
    "timestamp" ∉ c10Analysis.weaknesses := by
  have hsum : getFeedbackSummary c10Recs "r" none 30 0 = some c10Summary := by
    rw [getFeedbackSummary_eq_some c10Recs "r" none 30 0 [] rfl]
    have hsc : collectScores (queryFeedback c10Recs "r" none 30 0) =
        [("quality", [5])] := rfl
    rw [hsc]
    norm_num [averageScores, List.sum, c10Summary, topSuggestions, countSuggestions,
      List.filter, queryFeedback, c10Recs]
  have hana : analyzeAgentPerformance c10Recs "r" 30 0 = some c10Analysis := by
    norm_num [analyzeAgentPerformance, hsum, c10Summary, c10Analysis, List.filter]
  exact c10_timestamp_excluded c10Recs "r" none 30 0 c10Summary "r" 30 0 c10Analysis
    hsum hana

/-- aupdate can only add the key it is given. -/
theorem mem_keys_aupdate {α : Type} (l : List (String × α)) (k : String) (v : α)
    (x : String) (hx : x ∈ (aupdate l k v).map Prod.fst) :
    x ∈ l.map Prod.fst ∨ x = k := by
  induction l with
  | nil =>
    simp only [aupdate, List.map_cons, List.map_nil, List.mem_singleton] at hx
    exact Or.inr hx
  | cons kv rest ih =>
    obtain ⟨k1, w⟩ := kv
    by_cases h : k1 = k
    · simp only [aupdate, if_pos h, List.map_cons, List.mem_cons] at hx
      exact Or.inl (by simpa using hx)
    · simp only [aupdate, if_neg h, List.map_cons, List.mem_cons] at hx
      rcases hx with h1 | h1
      · exact Or.inl (by simp [h1])
      · rcases ih h1 with h2 | h2
        · exact Or.inl (by simp [h2])
        · exact Or.inr h2

/-- aupdate keeps keys duplicate-free. -/
theorem nodup_keys_aupdate {α : Type} (l : List (String × α)) (k : String) (v : α)
    (h : (l.map Prod.fst).Nodup) : ((aupdate l k v).map Prod.fst).Nodup := by
  induction l with
  | nil => simp [aupdate]
  | cons kv rest ih =>
    obtain ⟨k1, w⟩ := kv
    simp only [List.map_cons, List.nodup_cons] at h
    obtain ⟨h1, h2⟩ := h
    by_cases hk : k1 = k
    · simp only [aupdate, if_pos hk, List.map_cons, List.nodup_cons]
      exact ⟨h1, h2⟩
    · simp only [aupdate, if_neg hk, List.map_cons, List.nodup_cons]
      refine ⟨?_, ih h2⟩
      intro hmem
      rcases mem_keys_aupdate rest k v k1 hmem with hin | heq
      · exact h1 hin
      · exact hk heq

/-- Deleting a key keeps a sublist of the keys. -/
theorem keys_adelete_sublist {α : Type} (l : List (String × α)) (k : String) :
    List.Sublist ((adelete l k).map Prod.fst) (l.map Prod.fst) := by
  induction l with
  | nil => simp [adelete]
  | cons kv rest ih =>
    obtain ⟨k1, w⟩ := kv
    by_cases h : k1 = k
    · simp only [adelete, if_pos h, List.map_cons]
      exact List.sublist_cons_self _ _
    · simp only [adelete, if_neg h, List.map_cons]
      exact List.Sublist.cons₂ _ ih

/-- Deleting a key leaves lookups of other keys unchanged. -/
theorem alookup_adelete_ne {α : Type} (l : List (String × α)) (k k' : String)
    (h : k' ≠ k) : alookup (adelete l k) k' = alookup l k' := by
  induction l with
  | nil => simp [adelete]
  | cons kv rest ih =>
    obtain ⟨k1, w⟩ := kv
    by_cases h1 : k1 = k
    · subst h1
      simp [adelete, alookup, Ne.symm h]
    · simp only [adelete, if_neg h1, alookup]
      by_cases h2 : k1 = k'
      · simp [h2]
      · simp [h2, ih]

/-- With duplicate-free keys, deleting a key removes it. -/
theorem alookup_adelete_self {α : Type} (l : List (String × α)) (k : String)
    (hnd : (l.map Prod.fst).Nodup) : alookup (adelete l k) k = none := by
  induction l with
  | nil => simp [adelete, alookup]
  | cons kv rest ih =>
    obtain ⟨k1, w⟩ := kv
    simp only [List.map_cons, List.nodup_cons] at hnd
    obtain ⟨h1, h2⟩ := hnd
    by_cases hk : k1 = k
    · subst hk
      simp only [adelete, if_pos rfl]
      exact (alookup_eq_none_iff rest k1).mpr h1
    · simp only [adelete, if_neg hk, alookup, if_neg hk]
      exact ih h2

/-- The element just added is a member of the set. -/
theorem mem_setAdd_self (l : List String) (x : String) : x ∈ setAdd l x := by
  unfold setAdd
  by_cases h : x ∈ l
  · simp [h]
  · simp [h]

/-- Indexing one capability: the updated key holds the grown set. -/
theorem alookup_addCapability_self (caps : List (String × List String))
    (aid c : String) :
    alookup (addCapability caps aid c) c =
      some (setAdd ((alookup caps c).getD []) aid) :=
  alookup_aupdate_self caps c _

/-- Indexing one capability leaves other keys unchanged. -/
theorem alookup_addCapability_ne (caps : List (String × List String))
    (aid c c' : String) (h : c' ≠ c) :
    alookup (addCapability caps aid c) c' = alookup caps c' :=
  alookup_aupdate_ne caps c c' _ h

/-- Indexing one capability keeps the index keys duplicate-free. -/
theorem nodup_keys_addCapability (caps : List (String × List String))
    (aid c : String) (h : (caps.map Prod.fst).Nodup) :
    ((addCapability caps aid c).map Prod.fst).Nodup :=
  nodup_keys_aupdate caps c _ h

/-- Unindexing one capability leaves other keys unchanged. -/
theorem alookup_removeCapability_ne (caps : List (String × List String))
    (aid c c' : String) (h : c' ≠ c) :
    alookup (removeCapability caps aid c) c' = alookup caps c' := by
  unfold removeCapability
  cases hl : alookup caps c with
  | none => rfl
  | some s =>
    show alookup (if (s.filter (fun a => a ≠ aid)).isEmpty = true
        then adelete caps c
        else aupdate caps c (s.filter (fun a => a ≠ aid))) c' = alookup caps c'
    by_cases he : (s.filter (fun a => a ≠ aid)).isEmpty = true
    · rw [if_pos he]
      exact alookup_adelete_ne caps c c' h
    · rw [if_neg he]
      exact alookup_aupdate_ne caps c c' _ h

/-- After unindexing, the agent id is gone from that capability's set. -/
theorem removeCapability_no_aid (caps : List (String × List String))
    (aid c : String) (hnd : (caps.map Prod.fst).Nodup) :
    ∀ s, alookup (removeCapability caps aid c) c = some s → aid ∉ s := by
  intro s hs
  unfold removeCapability at hs
  cases hl : alookup caps c with
  | none =>
    rw [hl] at hs
    replace hs : alookup caps c = some s := hs
    rw [hl] at hs
    exact Option.noConfusion hs
  | some s0 =>
    rw [hl] at hs
    replace hs : alookup (if (s0.filter (fun a => a ≠ aid)).isEmpty = true
        then adelete caps c
        else aupdate caps c (s0.filter (fun a => a ≠ aid))) c = some s := hs
    by_cases he : (s0.filter (fun a => a ≠ aid)).isEmpty = true
    · rw [if_pos he, alookup_adelete_self caps c hnd] at hs
      exact Option.noConfusion hs
    · rw [if_neg he, alookup_aupdate_self] at hs
      injection hs with hseq
      subst hseq
      intro hmem
      simp [List.mem_filter] at hmem

/-- aupdate with a value carrying its own key preserves the registry's
agent-dict invariant. -/
theorem agentsWF_aupdate (l : List (String × RegAgent)) (k : String) (v : RegAgent)
    (hwf : ∀ k0 ag, alookup l k0 = some ag → ag.id = k0) (hv : v.id = k) :
    ∀ k0 ag, alookup (aupdate l k v) k0 = some ag → ag.id = k0 := by
  intro k0 ag h
  by_cases hk : k0 = k
  · subst hk
    rw [alookup_aupdate_self] at h
    injection h with h2
    subst h2
    exact hv
  · rw [alookup_aupdate_ne l k k0 v hk] at h
    exact hwf k0 ag h

/-- Claim C8 (Scenario E): after the registry consumes an agent.started
event for agent X advertising capabilities a and b, the agents returned
for capability a include X; after consuming X's agent.stopped event they
no longer include X. -/
theorem c8_registry_lifecycle (r : Registry) (X nm : String)
    (hwf : RegistryWF r) (hX : X ≠ "") (hnm : nm ≠ "") :
    (∃ ag ∈ getAgentsByCapability (handleAgentStarted r X nm ["a", "b"]) "a",
      ag.id = X) ∧
    (∀ ag ∈ getAgentsByCapability
        (handleAgentStopped (handleAgentStarted r X nm ["a", "b"]) X) "a",
      ag.id ≠ X) := by
  obtain ⟨hwfA, hndC⟩ := hwf
  have hguard : ¬ (X = "" ∨ nm = "") := by simp [hX, hnm]
  have h1 : handleAgentStarted r X nm ["a", "b"] =
      { agents := aupdate r.agents X
          { id := X, name := nm, capabilities := ["a", "b"], status := "active" },
        capabilities := addCapability (addCapability r.capabilities X "a") X "b" } := by
    simp only [handleAgentStarted, if_neg hguard, List.foldl]
  have hlk1 : alookup (addCapability (addCapability r.capabilities X "a") X "b") "a" =
      some (setAdd ((alookup r.capabilities "a").getD []) X) := by
    rw [alookup_addCapability_ne _ X "b" "a" (by decide)]
    exact alookup_addCapability_self r.capabilities X "a"
  constructor
  · refine ⟨{ id := X, name := nm, capabilities := ["a", "b"], status := "active" },
      ?_, rfl⟩
    rw [h1]
    show _ ∈ ((alookup (addCapability (addCapability r.capabilities X "a") X "b")
      "a").getD []).filterMap (fun aid => alookup (aupdate r.agents X
        { id := X, name := nm, capabilities := ["a", "b"], status := "active" }) aid)
    rw [hlk1]
    refine List.mem_filterMap.mpr ⟨X, ?_, ?_⟩
    · exact mem_setAdd_self _ X
    · exact alookup_aupdate_self r.agents X _
  · have h2 : handleAgentStopped (handleAgentStarted r X nm ["a", "b"]) X =
        { agents := aupdate (aupdate r.agents X
            { id := X, name := nm, capabilities := ["a", "b"], status := "active" }) X
            { id := X, name := nm, capabilities := ["a", "b"], status := "inactive" },
          capabilities := removeCapability (removeCapability
            (addCapability (addCapability r.capabilities X "a") X "b") X "a") X "b" } := by
      rw [h1]
      simp only [handleAgentStopped, if_neg hX, alookup_aupdate_self, List.foldl]
    have hnd1 : (((addCapability (addCapability r.capabilities X "a") X "b").map
        Prod.fst)).Nodup :=
      nodup_keys_addCapability _ X "b" (nodup_keys_addCapability _ X "a" hndC)
    have hWF2 : ∀ k0 ag0, alookup (aupdate (aupdate r.agents X
        { id := X, name := nm, capabilities := ["a", "b"], status := "active" }) X
        { id := X, name := nm, capabilities := ["a", "b"], status := "inactive" })
          k0 = some ag0 → ag0.id = k0 :=
      agentsWF_aupdate _ X _ (agentsWF_aupdate _ X _ hwfA rfl) rfl
    intro ag hag
    rw [h2] at hag
    replace hag : ag ∈ ((alookup (removeCapability (removeCapability
        (addCapability (addCapability r.capabilities X "a") X "b") X "a") X "b")
          "a").getD []).filterMap (fun aid => alookup (aupdate (aupdate r.agents X
            { id := X, name := nm, capabilities := ["a", "b"], status := "active" }) X
            { id := X, name := nm, capabilities := ["a", "b"], status := "inactive" })
              aid) := hag
    rw [alookup_removeCapability_ne _ X "b" "a" (by decide)] at hag
    cases hl : alookup (removeCapability
        (addCapability (addCapability r.capabilities X "a") X "b") X "a") "a" with
    | none =>
      rw [hl] at hag
      simp at hag
    | some s =>
      rw [hl] at hag
      simp only [Option.getD_some] at hag
      obtain ⟨aid, haidmem, haglk⟩ := List.mem_filterMap.mp hag
      have hXnot : X ∉ s :=
        removeCapability_no_aid _ X "a" hnd1 s hl
      rw [hWF2 aid ag haglk]
      intro heq
      exact hXnot (heq ▸ haidmem)

/-- Witness for C8 starting from the empty registry. -/
theorem c8_registry_lifecycle_witness :
    (∃ ag ∈ getAgentsByCapability
        (handleAgentStarted emptyRegistry "agent-x" "X" ["a", "b"]) "a",
      ag.id = "agent-x") ∧
    (∀ ag ∈ getAgentsByCapability
        (handleAgentStopped
          (handleAgentStarted emptyRegistry "agent-x" "X" ["a", "b"]) "agent-x") "a",
      ag.id ≠ "agent-x") :=
  c8_registry_lifecycle emptyRegistry "agent-x" "X"
    ⟨fun k ag h => absurd h (by simp [emptyRegistry, alookup]), by simp [emptyRegistry]⟩
    (by decide) (by decide)
